import Mathlib

set_option maxHeartbeats 1000000

set_option linter.unreachableTactic false

set_option linter.unusedTactic false

namespace Pipefish

/-! Typescheme algebra, translated from src/source/compiler/typeschemes.go.
The Go typeScheme interface has the implementations simpleType (a uint32),
alternateType ([]typeScheme), finiteTupleType ([]typeScheme), typedTupleType
(a struct holding an alternateType), blingType (a string tag) and listType
([]typeScheme).  We render the sum as one inductive type. -/

inductive TScheme where
| simple (t : Nat)
| alternate (l : List TScheme)
| finiteTuple (l : List TScheme)
| typedTuple (t : List TScheme)
| bling (tag : String)
| listT (l : List TScheme)

/-! The compare methods of typeschemes.go, lines 115-353.  Each kind matches on
the kind of the other argument; the slice kinds first compare lengths and then
compare elementwise, returning the first nonzero difference.  The Go switch
for typedTupleType lists only simpleType and finiteTupleType in its
returns-one case, so an alternateType falls to the default branch; the same
holds for blingType and listType.  We translate the switches case by case. -/

mutual

def tsCompare : TScheme → TScheme → Int
| .simple t, .simple u => (t : Int) - (u : Int)
| .simple _, _ => -1
| .alternate _, .simple _ => 1
| .alternate l, .alternate m => tsCompareList l m
| .alternate _, _ => -1
| .finiteTuple _, .simple _ => 1
| .finiteTuple _, .alternate _ => 1
| .finiteTuple l, .finiteTuple m => tsCompareList l m
| .finiteTuple _, _ => -1
| .typedTuple _, .simple _ => 1
| .typedTuple _, .finiteTuple _ => 1
| .typedTuple l, .typedTuple m => tsCompareList l m
| .typedTuple _, _ => -1
| .bling _, .simple _ => 1
| .bling _, .finiteTuple _ => 1
| .bling _, .typedTuple _ => 1
| .bling s, .bling u => if s < u then -1 else if s = u then 0 else 1
| .bling _, _ => -1
| .listT _, .simple _ => 1
| .listT _, .finiteTuple _ => 1
| .listT _, .typedTuple _ => 1
| .listT _, .bling _ => 1
| .listT l, .listT m => tsCompareList l m
| .listT _, _ => -1
termination_by t _ => (sizeOf t, 0)

def tsCompareList : List TScheme → List TScheme → Int
| l, m =>
  if (l.length : Int) - (m.length : Int) ≠ 0 then (l.length : Int) - (m.length : Int)
  else tsCompareListEq l m
termination_by l _ => (sizeOf l, 2)

def tsCompareListEq : List TScheme → List TScheme → Int
| [], _ => 0
| _ :: _, [] => 0
| a :: l, b :: m =>
  let d := tsCompare a b
  if d ≠ 0 then d else tsCompareListEq l m
termination_by l _ => (sizeOf l, 1)

end

/-! The lengths function of typeschemes.go, lines 21-54.  The result type
set.Set[int] is rendered as a Finset Int.  A bling or list scheme hits the
final panic of the Go switch, rendered as none.  In the alternate case the Go
loop returns early as soon as the accumulated set contains -1. -/

mutual

def lengths : TScheme → Option (Finset Int)
| .simple _ => some {1}
| .typedTuple _ => some {-1}
| .alternate l => lengthsAlt l ∅
| .finiteTuple [] => some {0}
| .finiteTuple (x :: rest) =>
  match lengths x, lengths (.finiteTuple rest) with
  | some s1, some s2 => some ((s1 ×ˢ s2).image (fun p => p.1 + p.2))
  | _, _ => none
| .bling _ => none
| .listT _ => none
termination_by t => (sizeOf t, 0)

def lengthsAlt : List TScheme → Finset Int → Option (Finset Int)
| [], acc => some acc
| v :: rest, acc =>
  match lengths v with
  | none => none
  | some s =>
    if (-1 : Int) ∈ acc ∪ s then some (acc ∪ s) else lengthsAlt rest (acc ∪ s)
termination_by l _ => (sizeOf l, 1)

end

mutual

/-- Absence of empty alternates in the positions that the lengths recursion
visits (it does not descend into the alternate stored inside a typed tuple,
whose lengths are the constant singleton -1). -/
def noEmptyAlt : TScheme → Bool
| .simple _ => true
| .typedTuple _ => true
| .bling _ => true
| .listT _ => true
| .alternate l => (!l.isEmpty) && noEmptyAltList l
| .finiteTuple l => noEmptyAltList l
termination_by t => (sizeOf t, 0)

/-- Pointwise form of noEmptyAlt on the members of a slice scheme. -/
def noEmptyAltList : List TScheme → Bool
| [] => true
| x :: rest => noEmptyAlt x && noEmptyAltList rest
termination_by l => (sizeOf l, 1)

end

/-! Value tags.  Modelled from the spec: the values package is not under src,
so the tag order is taken from the spec (section 3.1) cross-referenced with
the TypeNames table of BlankVm in src/source/vm/vm.go, lines 140-141:
UNDEFINED 0, INT_ARRAY 1, THUNK 2, CREATED_LOCAL_CONSTANT 3, TUPLE 4,
ERROR 5, UNSAT 6, REF 7, NULL 8, INT 9, BOOL 10, STRING 11, FLOAT 12,
TYPE 13, FUNC 14, PAIR 15, LIST 16, MAP 17, SET 18, LABEL 19, LB_ENUMS 20. -/

def vtTHUNK : Nat := 2

def vtTUPLE : Nat := 4

def vtERROR : Nat := 5

def vtNULL : Nat := 8

def vtINT : Nat := 9

def vtBOOL : Nat := 10

def vtSTRING : Nat := 11

def vtTYPE : Nat := 13

def vtFUNC : Nat := 14

def vtPAIR : Nat := 15

def vtLIST : Nat := 16

def vtMAP : Nat := 17

def vtSET : Nat := 18

def vtLB_ENUMS : Nat := 20

/-- Opcodes of the dispatch loop in src/source/vm/vm.go that this development
embeds (the float, persistent-vector, string-parsing, struct-resolver and
CalT cases are outside the needs of the claims and are omitted; an omitted
opcode is treated like the unhandled-opcode panic of the Go default case). -/

inductive Opcode where
| Addi | Adds | Adtk | Andb | Asgm | Call
| Cc11 | Cc1T | CcT1 | CcTT | Ccxx | Cv1T | CvTT
| Divi | Dofn | Equb | Equi | Equs | Gtei | Gthi | Halt | Idfn | IdxT
| Jmp | Jsr | LenT | Mker | Mkfn | Mkmp | Mkpr | Mkst | Modi | Muli
| Negi | Notb | Orb | QlnT | Qsng | QsnQ | Qtru | Qtyp | Ret | Strc
| Subi | Thnk | Typx | Untk
deriving DecidableEq

/-- Instructions: an opcode plus 32-bit operands, from the operation struct
in src/source/vm/operations.go (operands rendered as Nat). -/

structure Operation where
  opcode : Opcode
  args : List Nat

/-- Error records.  Modelled from the spec: object.Error is not under src;
the spec (section 3.1) describes an ERROR payload as a structured record
(id, message, origin token, args) and Adtk as appending tokens to a trace.
Tokens are rendered as plain naturals. -/

structure ErrObj where
  errorId : String
  message : String
  token : Nat
  trace : List Nat

/-- Operand-kind schema per opcode.  Modelled from the spec: the OPERANDS
table consulted by Vm.add is not under src; the kinds follow the spec
(sections 3.3 and 6.4) and the way Run consumes each operand slot.  For the
variadic opcodes the table lists the fixed positions; Vm.add consults entry
len(args)-1, and a position beyond the listed schema is treated as mem. -/

inductive OperandKind where
| mem | loc | num | tok | typ | lfc
deriving DecidableEq

def OPERANDS : Opcode → List OperandKind
| .Jmp => [.loc]
| .Jsr => [.loc]
| .Ret => []
| .Halt => []
| .Qtru => [.mem, .loc]
| .Qsng => [.mem, .loc]
| .QsnQ => [.mem, .loc]
| .Qtyp => [.mem, .typ, .loc]
| .QlnT => [.mem, .num, .loc]
| .Asgm => [.mem, .mem]
| .Idfn => [.mem, .mem]
| .Thnk => [.mem, .loc]
| .Untk => [.mem]
| .Adtk => [.mem, .mem, .tok]
| .Mker => [.mem, .mem, .tok]
| .Mkfn => [.mem, .lfc]
| .Mkst => [.mem, .mem]
| .Mkmp => [.mem, .mem]
| .Mkpr => [.mem, .mem, .mem]
| .Call => [.loc, .num, .num, .mem]
| .Dofn => [.mem, .mem, .mem]
| .Strc => [.mem, .typ, .mem]
| .CvTT => [.mem, .mem]
| .Cv1T => [.mem, .mem]
| .Negi => [.mem, .mem]
| .Notb => [.mem, .mem]
| .Typx => [.mem, .mem]
| .LenT => [.mem, .mem]
| .IdxT => [.mem, .mem, .mem, .mem]
| _ => [.mem, .mem, .mem]

/-! The value model and the machine state.  Translated from values.Value
(tag plus payload), vm.Lambda, vm.LambdaFactory and the runtime-mutable part
of vm.Vm; the payload variants mirror the dynamic payload types the Run loop
asserts (int, bool, string, value slice, set, map, Lambda, error pointer,
uint32 and ValueType).  Error pointers are addresses into an explicit heap of
ErrObj records, which models the shared mutable *object.Error of the Go
code. -/

mutual

inductive Value where
| mk (t : Nat) (v : Payload)

inductive Payload where
| pInt (n : Int)
| pBool (b : Bool)
| pStr (s : String)
| pVals (vs : List Value)
| pSet (vs : List Value)
| pMap (kvs : List KV)
| pFunc (lam : Lambda)
| pErr (addr : Nat)
| pU32 (n : Nat)
| pType (t : Nat)
| pNone

inductive KV where
| mk (k : Value) (v : Value)

inductive Lambda where
| mk (mc : Vmstate) (extTop : Nat) (prmTop : Nat) (dest : Nat) (locToCall : Nat)
    (captures : List Value)

inductive LambdaFactory where
| mk (model : Lambda) (extMem : List Nat) (size : Nat)

inductive Vmstate where
| mk (mem : List Value) (callstack : List Nat) (code : List Operation)
    (ubEnums : Nat) (tokens : List Nat) (lambdaFactories : List LambdaFactory)
    (errHeap : List ErrObj)

end

def Value.t : Value → Nat
| .mk t _ => t

def Value.v : Value → Payload
| .mk _ v => v

def Lambda.mc : Lambda → Vmstate
| .mk mc _ _ _ _ _ => mc

def Lambda.extTop : Lambda → Nat
| .mk _ e _ _ _ _ => e

def Lambda.prmTop : Lambda → Nat
| .mk _ _ p _ _ _ => p

def Lambda.dest : Lambda → Nat
| .mk _ _ _ d _ _ => d

def Lambda.locToCall : Lambda → Nat
| .mk _ _ _ _ l _ => l

def Lambda.captures : Lambda → List Value
| .mk _ _ _ _ _ c => c

def LambdaFactory.model : LambdaFactory → Lambda
| .mk m _ _ => m

def LambdaFactory.extMem : LambdaFactory → List Nat
| .mk _ e _ => e

def Vmstate.mem : Vmstate → List Value
| .mk m _ _ _ _ _ _ => m

def Vmstate.callstack : Vmstate → List Nat
| .mk _ c _ _ _ _ _ => c

def Vmstate.code : Vmstate → List Operation
| .mk _ _ c _ _ _ _ => c

def Vmstate.ubEnums : Vmstate → Nat
| .mk _ _ _ u _ _ _ => u

def Vmstate.tokens : Vmstate → List Nat
| .mk _ _ _ _ t _ _ => t

def Vmstate.lambdaFactories : Vmstate → List LambdaFactory
| .mk _ _ _ _ _ l _ => l

def Vmstate.errHeap : Vmstate → List ErrObj
| .mk _ _ _ _ _ _ e => e

def Vmstate.withMem : Vmstate → List Value → Vmstate
| .mk _ c co u t l e, m => .mk m c co u t l e

def Vmstate.withCallstack : Vmstate → List Nat → Vmstate
| .mk m _ co u t l e, c => .mk m c co u t l e

def Vmstate.withCode : Vmstate → List Operation → Vmstate
| .mk m c _ u t l e, co => .mk m c co u t l e

def Vmstate.withTokens : Vmstate → List Nat → Vmstate
| .mk m c co u _ l e, t => .mk m c co u t l e

def Vmstate.withLambdaFactories : Vmstate → List LambdaFactory → Vmstate
| .mk m c co u t _ e, l => .mk m c co u t l e

def Vmstate.withErrHeap : Vmstate → List ErrObj → Vmstate
| .mk m c co u t l _, e => .mk m c co u t l e

/-! Code splicing.  Translated from Vm.add, src/source/vm/vm.go lines
113-131: the base lengths of the code, token and lambda-factory tables are
taken first, then each copied instruction has its last operand relocated by
the matching base length when it has more than one operand and the operand
schema tags the last operand loc, tok or lfc; the tokens and lambda
factories are appended afterwards. -/

def bumpLast (l : List Nat) (k : Nat) : List Nat :=
l.dropLast ++ [l.getLastD 0 + k]

def relocateOp (start tokStart lfStart : Nat) (op : Operation) : Operation :=
  let n := op.args.length
  let kind := (OPERANDS op.opcode).getD (n - 1) OperandKind.mem
  let a1 := if 1 < n ∧ kind = .loc then bumpLast op.args start else op.args
  let a2 := if 1 < n ∧ kind = .tok then bumpLast a1 tokStart else a1
  let a3 := if 1 < n ∧ kind = .lfc then bumpLast a2 lfStart else a2
  Operation.mk op.opcode a3

def addVm (vm vmToAdd : Vmstate) : Vmstate :=
  let start := vm.code.length
  let tokStart := vm.tokens.length
  let lfStart := vm.lambdaFactories.length
  ((vm.withCode
      (vm.code ++ vmToAdd.code.map (relocateOp start tokStart lfStart))).withTokens
    (vm.tokens ++ vmToAdd.tokens)).withLambdaFactories
      (vm.lambdaFactories ++ vmToAdd.lambdaFactories)

/-! Register access and payload assertions.  Reads and writes are by absolute
index into the register file; a Go index panic or a failed dynamic type
assertion is rendered as none. -/

def rd (vm : Vmstate) (i : Nat) : Option Value :=
vm.mem[i]?

def wr (vm : Vmstate) (i : Nat) (x : Value) : Option Vmstate :=
if i < vm.mem.length then some (vm.withMem (vm.mem.set i x)) else none

def Value.asInt : Value → Option Int
| .mk _ (.pInt n) => some n
| _ => none

def Value.asBool : Value → Option Bool
| .mk _ (.pBool b) => some b
| _ => none

def Value.asStr : Value → Option String
| .mk _ (.pStr s) => some s
| _ => none

def Value.asVals : Value → Option (List Value)
| .mk _ (.pVals vs) => some vs
| _ => none

def Value.asFunc : Value → Option Lambda
| .mk _ (.pFunc lam) => some lam
| _ => none

def Value.asErr : Value → Option Nat
| .mk _ (.pErr a) => some a
| _ => none

def Value.asU32 : Value → Option Nat
| .mk _ (.pU32 n) => some n
| _ => none

def rdInt (vm : Vmstate) (i : Nat) : Option Int :=
(rd vm i).bind Value.asInt

def rdBool (vm : Vmstate) (i : Nat) : Option Bool :=
(rd vm i).bind Value.asBool

def rdStr (vm : Vmstate) (i : Nat) : Option String :=
(rd vm i).bind Value.asStr

def rdVals (vm : Vmstate) (i : Nat) : Option (List Value) :=
(rd vm i).bind Value.asVals

def mkInt (n : Int) : Value :=
.mk vtINT (.pInt n)

def mkBool (b : Bool) : Value :=
.mk vtBOOL (.pBool b)

def mkStr (s : String) : Value :=
.mk vtSTRING (.pStr s)

/-- Reads the register That() - back, i.e. at index len(Mem) - 1 - back;
Go unsigned wraparound on too-small memories is rendered as none. -/

def thatMinus (vm : Vmstate) (back : Nat) : Option Value :=
if back + 1 ≤ vm.mem.length then vm.mem[vm.mem.length - 1 - back]? else none

/-- Admissibility of a value as a set element or map value, from the Mkst and
Mkmp cases of Run: the tag sits in [NULL, PAIR) or in the enum band. -/

def admissible (ub : Nat) (v : Value) : Bool :=
(decide (vtNULL ≤ v.t) && decide (v.t < vtPAIR)) ||
  (decide (vtLB_ENUMS ≤ v.t) && decide (v.t < ub))

/-- Loop body of the Mkst case (vm.go lines 388-396): each element failing
the admissibility check makes the destination hold the latent error at
That(); every element, failing or not, is added to the accumulating set
(rendered as its insertion sequence). -/

def mkstLoop (a0 : Nat) : List Value → Vmstate → List Value → Option (Vmstate × List Value)
| [], vm, acc => some (vm, acc)
| v :: rest, vm, acc =>
  if admissible vm.ubEnums v then mkstLoop a0 rest vm (acc ++ [v])
  else
    match thatMinus vm 0 with
    | none => none
    | some e =>
      match wr vm a0 e with
      | none => none
      | some vm2 => mkstLoop a0 rest vm2 (acc ++ [v])

/-- Loop body of the Mkmp case (vm.go lines 397-410): a non-PAIR element
makes the destination hold the latent error at That()-1 and breaks; a PAIR
whose value part fails the admissibility check makes the destination hold
the latent error at That() and the loop continues; the key-value pair is
added in both non-breaking cases (rendered as its insertion sequence). -/

def mkmpLoop (a0 : Nat) : List Value → Vmstate → List KV → Option (Vmstate × List KV)
| [], vm, acc => some (vm, acc)
| p :: rest, vm, acc =>
  if p.t ≠ vtPAIR then
    match thatMinus vm 1 with
    | none => none
    | some e =>
      match wr vm a0 e with
      | none => none
      | some vm2 => some (vm2, acc)
  else
    match p.v with
    | .pVals vs =>
      match vs[0]?, vs[1]? with
      | some k, some v =>
        if admissible vm.ubEnums v then mkmpLoop a0 rest vm (acc ++ [KV.mk k v])
        else
          match thatMinus vm 0 with
          | none => none
          | some e =>
            match wr vm a0 e with
            | none => none
            | some vm2 => mkmpLoop a0 rest vm2 (acc ++ [KV.mk k v])
      | _, _ => none
    | _ => none

/-- Argument-shifting loop of the Call case (vm.go lines 170-173), copying
count registers from the argument slots named from args[3] on into the
positions from base on, reading the register file as it is mutated. -/

def callCopy (args : List Nat) (base : Nat) : Nat → Nat → Vmstate → Option Vmstate
| 0, _, vm => some vm
| n + 1, j, vm =>
  match args[3 + j]? with
  | none => none
  | some src =>
    match rd vm src with
    | none => none
    | some v =>
      match wr vm (base + j) v with
      | none => none
      | some vm2 => callCopy args base n (j + 1) vm2

/-- Parameter-copying loop of the Dofn case (vm.go lines 235-237): count
registers of the lambda's owned register file, from extTop on, receive the
supplied arguments named from args[2] on. -/

def dofnParams (args : List Nat) (extTop : Nat) : Nat → Nat → Vmstate → Vmstate → Option Vmstate
| 0, _, _, inner => some inner
| n + 1, i, outer, inner =>
  match args[2 + i]? with
  | none => none
  | some src =>
    match rd outer src with
    | none => none
    | some v =>
      match wr inner (extTop + i) v with
      | none => none
      | some inner2 => dofnParams args extTop n (i + 1) outer inner2

/-- Go builtin copy(dst, src): the first min(len dst, len src) entries of dst
are replaced by those of src, the rest of dst is kept. -/

def goCopy (dst src : List Value) : List Value :=
src.take (min dst.length src.length) ++ dst.drop (min dst.length src.length)

/-- Control outcome of one arm of the dispatch switch: goNext l models
reaching the loc++ at the bottom of the loop with the loc variable equal to
l (so the next instruction is at l+1); goTo l models a continue with loc set
to l; halted models break loop. -/

inductive Ctl where
| goNext (l : Nat)
| goTo (l : Nat)
| halted

/-- Shared tail of the register-writing arms: the written machine falls
through with the given control outcome, a failed write is a panic. -/

def finishW (w : Option Vmstate) (c : Ctl) : Option (Vmstate × Ctl) :=
match w with
| some vm2 => some (vm2, c)
| none => none

/-- One arm of the dispatch switch of Run (vm.go lines 145-506) for every
embedded opcode except Dofn, which recursively runs an inner machine and is
handled inside run.  Each case mirrors the Go case of the same name,
including the absence of continue in the QlnT case and the append of the
whole right operand in the CcTT case. -/

def step (vm : Vmstate) (loc : Nat) : Option (Vmstate × Ctl) :=
match vm.code[loc]? with
| none => none
| some op =>
  match op.opcode with
  | .Addi =>
    match op.args[0]?, op.args[1]?, op.args[2]? with
    | some a0, some a1, some a2 =>
      match rdInt vm a1, rdInt vm a2 with
      | some x, some y =>
        finishW (wr vm a0 (mkInt (x + y))) (.goNext loc)
      | _, _ => none
    | _, _, _ => none
  | .Adds =>
    match op.args[0]?, op.args[1]?, op.args[2]? with
    | some a0, some a1, some a2 =>
      match rdStr vm a1, rdStr vm a2 with
      | some x, some y =>
        finishW (wr vm a0 (mkStr (x ++ y))) (.goNext loc)
      | _, _ => none
    | _, _, _ => none
  | .Adtk =>
    match op.args[0]?, op.args[1]?, op.args[2]? with
    | some a0, some a1, some a2 =>
      match rd vm a1 with
      | none => none
      | some v1 =>
        match wr vm a0 v1 with
        | none => none
        | some vm2 =>
          match Value.asErr v1 with
          | none => none
          | some addr =>
            match vm2.errHeap[addr]?, vm2.tokens[a2]? with
            | some e, some tk =>
              some (vm2.withErrHeap
                (vm2.errHeap.set addr { e with trace := e.trace ++ [tk] }), .goNext loc)
            | _, _ => none
    | _, _, _ => none
  | .Andb =>
    match op.args[0]?, op.args[1]?, op.args[2]? with
    | some a0, some a1, some a2 =>
      match rdBool vm a1, rdBool vm a2 with
      | some x, some y =>
        finishW (wr vm a0 (mkBool (x && y))) (.goNext loc)
      | _, _ => none
    | _, _, _ => none
  | .Asgm =>
    match op.args[0]?, op.args[1]? with
    | some a0, some a1 =>
      match rd vm a1 with
      | none => none
      | some v =>
        finishW (wr vm a0 v) (.goNext loc)
    | _, _ => none
  | .Call =>
    match op.args[0]?, op.args[1]?, op.args[2]? with
    | some a0, some a1, some a2 =>
      match callCopy op.args a1 (a2 - a1) 0 vm with
      | none => none
      | some vm2 => some (vm2.withCallstack (vm2.callstack ++ [loc]), .goTo a0)
    | _, _, _ => none
  | .Cc11 =>
    match op.args[0]?, op.args[1]?, op.args[2]? with
    | some a0, some a1, some a2 =>
      match rd vm a1, rd vm a2 with
      | some v1, some v2 =>
        finishW (wr vm a0 (.mk vtTUPLE (.pVals [v1, v2]))) (.goNext loc)
      | _, _ => none
    | _, _, _ => none
  | .Cc1T =>
    match op.args[0]?, op.args[1]?, op.args[2]? with
    | some a0, some a1, some a2 =>
      match rd vm a1, rdVals vm a2 with
      | some v1, some vs2 =>
        finishW (wr vm a0 (.mk vtTUPLE (.pVals ([v1] ++ vs2)))) (.goNext loc)
      | _, _ => none
    | _, _, _ => none
  | .CcT1 =>
    match op.args[0]?, op.args[1]?, op.args[2]? with
    | some a0, some a1, some a2 =>
      match rdVals vm a1, rd vm a2 with
      | some vs1, some v2 =>
        finishW (wr vm a0 (.mk vtTUPLE (.pVals (vs1 ++ [v2])))) (.goNext loc)
      | _, _ => none
    | _, _, _ => none
  | .CcTT =>
    match op.args[0]?, op.args[1]?, op.args[2]? with
    | some a0, some a1, some a2 =>
      match rdVals vm a1, rd vm a2 with
      | some vs1, some v2 =>
        finishW (wr vm a0 (.mk vtTUPLE (.pVals (vs1 ++ [v2])))) (.goNext loc)
      | _, _ => none
    | _, _, _ => none
  | .Ccxx =>
    match op.args[0]?, op.args[1]?, op.args[2]? with
    | some a0, some a1, some a2 =>
      match rd vm a1, rd vm a2 with
      | some v1, some v2 =>
        if v1.t = vtTUPLE then
          match Value.asVals v1 with
          | none => none
          | some vs1 =>
            finishW (wr vm a0 (.mk vtTUPLE (.pVals (vs1 ++ [v2])))) (.goNext loc)
        else if v2.t = vtTUPLE then
          match Value.asVals v2 with
          | none => none
          | some vs2 =>
            finishW (wr vm a0 (.mk vtTUPLE (.pVals ([v1] ++ vs2)))) (.goNext loc)
        else
          finishW (wr vm a0 (.mk vtTUPLE (.pVals [v1, v2]))) (.goNext loc)
      | _, _ => none
    | _, _, _ => none
  | .Cv1T =>
    match op.args[0]?, op.args[1]? with
    | some a0, some a1 =>
      match rd vm a1 with
      | none => none
      | some v1 =>
        finishW (wr vm a0 (.mk vtTUPLE (.pVals [v1]))) (.goNext loc)
    | _, _ => none
  | .CvTT =>
    match op.args[0]? with
    | none => none
    | some a0 =>
      match (op.args.drop 1).mapM (rd vm) with
      | none => none
      | some slice =>
        finishW (wr vm a0 (.mk vtTUPLE (.pVals slice))) (.goNext loc)
  | .Divi =>
    match op.args[0]?, op.args[1]?, op.args[2]? with
    | some a0, some a1, some a2 =>
      match rdInt vm a1, rdInt vm a2 with
      | some x, some y =>
        if y = 0 then none
        else
          finishW (wr vm a0 (mkInt (Int.tdiv x y))) (.goNext loc)
      | _, _ => none
    | _, _, _ => none
  | .Dofn => none
  | .Equb =>
    match op.args[0]?, op.args[1]?, op.args[2]? with
    | some a0, some a1, some a2 =>
      match rdBool vm a1, rdBool vm a2 with
      | some x, some y =>
        finishW (wr vm a0 (mkBool (x = y))) (.goNext loc)
      | _, _ => none
    | _, _, _ => none
  | .Equi =>
    match op.args[0]?, op.args[1]?, op.args[2]? with
    | some a0, some a1, some a2 =>
      match rdInt vm a1, rdInt vm a2 with
      | some x, some y =>
        finishW (wr vm a0 (mkBool (x = y))) (.goNext loc)
      | _, _ => none
    | _, _, _ => none
  | .Equs =>
    match op.args[0]?, op.args[1]?, op.args[2]? with
    | some a0, some a1, some a2 =>
      match rdStr vm a1, rdStr vm a2 with
      | some x, some y =>
        finishW (wr vm a0 (mkBool (x = y))) (.goNext loc)
      | _, _ => none
    | _, _, _ => none
  | .Gtei =>
    match op.args[0]?, op.args[1]?, op.args[2]? with
    | some a0, some a1, some a2 =>
      match rdInt vm a1, rdInt vm a2 with
      | some x, some y =>
        finishW (wr vm a0 (mkBool (x ≥ y))) (.goNext loc)
      | _, _ => none
    | _, _, _ => none
  | .Gthi =>
    match op.args[0]?, op.args[1]?, op.args[2]? with
    | some a0, some a1, some a2 =>
      match rdInt vm a1, rdInt vm a2 with
      | some x, some y =>
        finishW (wr vm a0 (mkBool (x > y))) (.goNext loc)
      | _, _ => none
    | _, _, _ => none
  | .Halt => some (vm, .halted)
  | .Idfn =>
    match op.args[0]?, op.args[1]? with
    | some a0, some a1 =>
      match rd vm a1 with
      | none => none
      | some v =>
        finishW (wr vm a0 v) (.goNext loc)
    | _, _ => none
  | .IdxT =>
    match op.args[0]?, op.args[1]?, op.args[2]? with
    | some a0, some a1, some a2 =>
      match rdVals vm a1, rdInt vm a2 with
      | some tuple, some ix =>
        if 0 ≤ ix ∧ ix < (tuple.length : Int) then
          match tuple[ix.toNat]? with
          | none => none
          | some el =>
            finishW (wr vm a0 el) (.goNext loc)
        else
          match op.args[3]? with
          | none => none
          | some a3 =>
            match rd vm a3 with
            | none => none
            | some fb =>
              finishW (wr vm a0 fb) (.goNext loc)
      | _, _ => none
    | _, _, _ => none
  | .Jmp =>
    match op.args[0]? with
    | some a0 => some (vm, .goTo a0)
    | none => none
  | .Jsr =>
    match op.args[0]? with
    | some a0 => some (vm.withCallstack (vm.callstack ++ [loc]), .goTo a0)
    | none => none
  | .LenT =>
    match op.args[0]?, op.args[1]? with
    | some a0, some a1 =>
      match rdVals vm a1 with
      | none => none
      | some vs =>
        finishW (wr vm a0 (mkInt vs.length)) (.goNext loc)
    | _, _ => none
  | .Mker =>
    match op.args[0]?, op.args[1]?, op.args[2]? with
    | some a0, some a1, some a2 =>
      match rdStr vm a1, vm.tokens[a2]? with
      | some msg, some tk =>
        let addr := vm.errHeap.length
        let vmh := vm.withErrHeap (vm.errHeap ++ [ErrObj.mk "eval/user" msg tk []])
        finishW (wr vmh a0 (.mk vtERROR (.pErr addr))) (.goNext loc)
      | _, _ => none
    | _, _, _ => none
  | .Mkfn =>
    match op.args[0]?, op.args[1]? with
    | some a0, some a1 =>
      match vm.lambdaFactories[a1]? with
      | none => none
      | some lf =>
        match lf.extMem.mapM (rd vm) with
        | none => none
        | some caps =>
          let m := lf.model
          let newLam := Lambda.mk m.mc m.extTop m.prmTop m.dest m.locToCall caps
          finishW (wr vm a0 (.mk vtFUNC (.pFunc newLam))) (.goNext loc)
    | _, _ => none
  | .Mkmp =>
    match op.args[0]?, op.args[1]? with
    | some a0, some a1 =>
      match rdVals vm a1 with
      | none => none
      | some elems =>
        match mkmpLoop a0 elems vm [] with
        | none => none
        | some (vmL, acc) =>
          finishW (wr vmL a0 (.mk vtMAP (.pMap acc))) (.goNext loc)
    | _, _ => none
  | .Mkpr =>
    match op.args[0]?, op.args[1]?, op.args[2]? with
    | some a0, some a1, some a2 =>
      match rd vm a1, rd vm a2 with
      | some v1, some v2 =>
        finishW (wr vm a0 (.mk vtPAIR (.pVals [v1, v2]))) (.goNext loc)
      | _, _ => none
    | _, _, _ => none
  | .Mkst =>
    match op.args[0]?, op.args[1]? with
    | some a0, some a1 =>
      match rdVals vm a1 with
      | none => none
      | some elems =>
        match mkstLoop a0 elems vm [] with
        | none => none
        | some (vmL, acc) =>
          finishW (wr vmL a0 (.mk vtSET (.pSet acc))) (.goNext loc)
    | _, _ => none
  | .Modi =>
    match op.args[0]?, op.args[1]?, op.args[2]? with
    | some a0, some a1, some a2 =>
      match rdInt vm a1, rdInt vm a2 with
      | some x, some y =>
        if y = 0 then none
        else
          finishW (wr vm a0 (mkInt (Int.tmod x y))) (.goNext loc)
      | _, _ => none
    | _, _, _ => none
  | .Muli =>
    match op.args[0]?, op.args[1]?, op.args[2]? with
    | some a0, some a1, some a2 =>
      match rdInt vm a1, rdInt vm a2 with
      | some x, some y =>
        finishW (wr vm a0 (mkInt (x * y))) (.goNext loc)
      | _, _ => none
    | _, _, _ => none
  | .Negi =>
    match op.args[0]?, op.args[1]? with
    | some a0, some a1 =>
      match rdInt vm a1 with
      | none => none
      | some x =>
        finishW (wr vm a0 (mkInt (-x))) (.goNext loc)
    | _, _ => none
  | .Notb =>
    match op.args[0]?, op.args[1]? with
    | some a0, some a1 =>
      match rdBool vm a1 with
      | none => none
      | some b =>
        finishW (wr vm a0 (mkBool (!b))) (.goNext loc)
    | _, _ => none
  | .Orb =>
    match op.args[0]?, op.args[1]?, op.args[2]? with
    | some a0, some a1, some a2 =>
      match rdBool vm a1, rdBool vm a2 with
      | some x, some y =>
        finishW (wr vm a0 (mkBool (x || y))) (.goNext loc)
      | _, _ => none
    | _, _, _ => none
  | .QlnT =>
    match op.args[0]?, op.args[1]?, op.args[2]? with
    | some a0, some a1, some a2 =>
      match rdVals vm a0 with
      | none => none
      | some vs => some (vm, .goNext (if vs.length = a1 then loc + 1 else a2))
    | _, _, _ => none
  | .Qsng =>
    match op.args[0]?, op.args[1]? with
    | some a0, some a1 =>
      match rd vm a0 with
      | none => none
      | some v => some (vm, .goTo (if v.t ≥ vtINT then loc + 1 else a1))
    | _, _ => none
  | .QsnQ =>
    match op.args[0]?, op.args[1]? with
    | some a0, some a1 =>
      match rd vm a0 with
      | none => none
      | some v => some (vm, .goTo (if v.t ≥ vtNULL then loc + 1 else a1))
    | _, _ => none
  | .Qtru =>
    match op.args[0]?, op.args[1]? with
    | some a0, some a1 =>
      match rdBool vm a0 with
      | none => none
      | some b => some (vm, .goTo (if b then loc + 1 else a1))
    | _, _ => none
  | .Qtyp =>
    match op.args[0]?, op.args[1]?, op.args[2]? with
    | some a0, some a1, some a2 =>
      match rd vm a0 with
      | none => none
      | some v => some (vm, .goTo (if v.t = a1 then loc + 1 else a2))
    | _, _, _ => none
  | .Ret =>
    match vm.callstack.getLast? with
    | none => some (vm, .halted)
    | some retLoc => some (vm.withCallstack vm.callstack.dropLast, .goNext retLoc)
  | .Strc =>
    match op.args[0]?, op.args[1]? with
    | some a0, some a1 =>
      match (op.args.drop 2).mapM (rd vm) with
      | none => none
      | some fields =>
        finishW (wr vm a0 (.mk a1 (.pVals fields))) (.goNext loc)
    | _, _ => none
  | .Subi =>
    match op.args[0]?, op.args[1]?, op.args[2]? with
    | some a0, some a1, some a2 =>
      match rdInt vm a1, rdInt vm a2 with
      | some x, some y =>
        finishW (wr vm a0 (mkInt (x - y))) (.goNext loc)
      | _, _ => none
    | _, _, _ => none
  | .Thnk =>
    match op.args[0]?, op.args[1]? with
    | some a0, some a1 =>
      finishW (wr vm a0 (.mk vtTHUNK (.pU32 a1))) (.goNext loc)
    | _, _ => none
  | .Typx =>
    match op.args[0]?, op.args[1]? with
    | some a0, some a1 =>
      match rd vm a1 with
      | none => none
      | some v =>
        finishW (wr vm a0 (.mk vtTYPE (.pType v.t))) (.goNext loc)
    | _, _ => none
  | .Untk =>
    match op.args[0]? with
    | none => none
    | some a0 =>
      match rd vm a0 with
      | none => none
      | some v =>
        if v.t = vtTHUNK then
          match Value.asU32 v with
          | none => none
          | some addr => some (vm.withCallstack (vm.callstack ++ [loc]), .goTo addr)
        else some (vm, .goNext loc)

/-- The dispatch loop Run of vm.go, with a fuel bound: runs from a code
offset until Halt, or Ret on an empty call stack, or out of fuel (none).
The Dofn case (vm.go lines 233-240) is inlined here because it recursively
runs the lambda's own machine: the supplied arguments overwrite the
parameter slots of the lambda's register file, copy(lhs.Captures, vm.Mem)
replaces the captures snapshot with a prefix of the outer register file (the
direction the Go source has), the inner machine runs from the entry offset,
and mem[lambda.dest] of the inner machine lands in the outer destination. -/

def run : Nat → Vmstate → Nat → Option Vmstate
| 0, _, _ => none
| Nat.succ f, vm, loc =>
  match vm.code[loc]? with
  | none => none
  | some op =>
    match op.opcode with
    | .Dofn =>
      match op.args[0]?, op.args[1]? with
      | some a0, some a1 =>
        match (rd vm a1).bind Value.asFunc with
        | none => none
        | some lam =>
          match dofnParams op.args lam.extTop (lam.prmTop - lam.extTop) 0 vm lam.mc with
          | none => none
          | some inner1 =>
            match run f inner1 lam.locToCall with
            | none => none
            | some innerFin =>
              match innerFin.mem[lam.dest]? with
              | none => none
              | some res =>
                match wr vm a1 (.mk vtFUNC (.pFunc (Lambda.mk innerFin lam.extTop
                    lam.prmTop lam.dest lam.locToCall (goCopy lam.captures vm.mem)))) with
                | none => none
                | some vmA =>
                  match wr vmA a0 res with
                  | none => none
                  | some vmB => run f vmB (loc + 1)
      | _, _ => none
    | _ =>
      match step vm loc with
      | none => none
      | some (vm2, .goNext l) => run f vm2 (l + 1)
      | some (vm2, .goTo l) => run f vm2 l
      | some (vm2, .halted) => some vm2

@[simp] theorem Vmstate.mem_withMem (vm : Vmstate) (m : List Value) : (vm.withMem m).mem = m := by
cases vm
rfl

@[simp] theorem Vmstate.mem_withCallstack (vm : Vmstate) (c : List Nat) :
    (vm.withCallstack c).mem = vm.mem := by
cases vm
rfl

@[simp] theorem Vmstate.mem_withErrHeap (vm : Vmstate) (e : List ErrObj) :
    (vm.withErrHeap e).mem = vm.mem := by
cases vm
rfl

/-! Compiler emission primitives.  Modelled from the spec: the Compiler
methods reserve, emit, put, reserveError and reserveToken are not under src;
the spec (section 6.1) describes them as appending a constant Value to the
register file returning its index, appending an instruction, the emit
variant that also reserves the destination register, and reserving an error
value.  The compiler state acted on is the machine being built. -/

def reserve (vm : Vmstate) (v : Value) : Vmstate × Nat :=
(vm.withMem (vm.mem ++ [v]), vm.mem.length)

def emit (vm : Vmstate) (op : Opcode) (args : List Nat) : Vmstate :=
vm.withCode (vm.code ++ [⟨op, args⟩])

def put (vm : Vmstate) (op : Opcode) (args : List Nat) : Vmstate :=
  let r := reserve vm (.mk 0 .pNone)
  emit r.1 op ([r.2] ++ args)

def reserveError (vm : Vmstate) (id : String) (tok : Nat) : Vmstate :=
  let addr := vm.errHeap.length
  let vmh := vm.withErrHeap (vm.errHeap ++ [ErrObj.mk id "" tok []])
  vmh.withMem (vmh.mem ++ [.mk vtERROR (.pErr addr)])

/-- Code emitted by the integer-division builtin, translated from
btDivideIntegers in src/source/compiler/typeschemes.go lines 441-449: a zero
constant is reserved, Equi compares the divisor against it into a fresh
register, Qtru jumps past the error branch when the comparison is false, the
error branch reserves the built/div/int error and assigns it to the
destination then jumps past the division, and the fall-through branch is the
unguarded Divi. -/

def btDivideIntegers (vm : Vmstate) (tok : Nat) (dest : Nat) (args : List Nat) : Vmstate :=
  let vm1 := (reserve vm (mkInt 0)).1
  let z := vm1.mem.length - 1
  let vm2 := put vm1 .Equi [args.getD 2 0, z]
  let b := vm2.mem.length - 1
  let vm3 := emit vm2 .Qtru [b, vm2.code.length + 3]
  let vm4 := reserveError vm3 "built/div/int" tok
  let e := vm4.mem.length - 1
  let vm5 := emit vm4 .Asgm [dest, e]
  let vm6 := emit vm5 .Jmp [vm5.code.length + 2]
  emit vm6 .Divi [dest, args.getD 0 0, args.getD 2 0]

/-! Concrete machines used to settle the claims. -/

/-- Tuple of integer values. -/

def tupleOf (l : List Int) : Value :=
.mk vtTUPLE (.pVals (l.map mkInt))

def nullV : Value :=
.mk vtNULL .pNone

/-- Splicing base: one instruction of code, no tokens or factories. -/

def c1Base : Vmstate :=
.mk [] [] [⟨.Halt, []⟩] vtLB_ENUMS [] [] []

/-- Spliced fragment: a Jmp with a single loc operand and a Qtru whose last
operand is a loc. -/

def c1Other : Vmstate :=
.mk [] [] [⟨.Jmp, [5]⟩, ⟨.Qtru, [0, 7]⟩] vtLB_ENUMS [] [] []

/-- Machine for the Mkst claim: the source tuple at register 0 holds a PAIR,
which fails the set-admissibility predicate; the latent error sits at the top
of memory, the destination is register 2. -/

def c2vmSt : Vmstate :=
.mk [.mk vtTUPLE (.pVals [.mk vtPAIR (.pVals [mkInt 1, mkInt 2])]), nullV, nullV,
    .mk vtERROR (.pErr 0)]
  [] [⟨.Mkst, [2, 0]⟩, ⟨.Halt, []⟩] vtLB_ENUMS [] []
  [ErrObj.mk "built/set/type" "" 0 []]

/-- Machine for the Mkmp claim: the source tuple at register 0 holds an INT,
not a PAIR; the latent errors sit at the top of memory as btMakeMap reserves
them, the destination is register 1. -/

def c2vmMp : Vmstate :=
.mk [.mk vtTUPLE (.pVals [mkInt 1]), nullV, nullV, .mk vtERROR (.pErr 0),
    .mk vtERROR (.pErr 1)]
  [] [⟨.Mkmp, [1, 0]⟩, ⟨.Halt, []⟩] vtLB_ENUMS [] []
  [ErrObj.mk "built/map/pair" "" 0 [], ErrObj.mk "built/map/type" "" 0 []]

/-- Machine for the tuple-concatenation claim: registers 0 and 1 hold the
tuples, register 4 holds INT 0, CcTT writes register 2 and Cc1T register 3. -/

def c3vm : Vmstate :=
.mk [tupleOf [1, 2], tupleOf [3, 4], nullV, nullV, mkInt 0] []
  [⟨.CcTT, [2, 0, 1]⟩, ⟨.Cc1T, [3, 4, 0]⟩, ⟨.Halt, []⟩] vtLB_ENUMS [] [] []

/-- Register file and body of the lambda of the closure-capture scenario:
register 0 is the capture slot, register 1 the parameter slot, register 2
the destination; the body adds the capture slot to the parameter. -/

def c5inner : Vmstate :=
.mk [mkInt 0, mkInt 0, mkInt 0] [] [⟨.Addi, [2, 0, 1]⟩, ⟨.Ret, []⟩] vtLB_ENUMS [] [] []

def c5lambda : Lambda :=
.mk c5inner 1 2 2 0 []

/-- Outer machine of the closure-capture scenario: register 0 holds INT 41
and is the factory's only external-memory entry, register 3 holds the
argument INT 1, Mkfn builds the closure into register 1 and Dofn calls it
into register 2. -/

def c5vm : Vmstate :=
.mk [mkInt 41, nullV, nullV, mkInt 1] []
  [⟨.Mkfn, [1, 0]⟩, ⟨.Dofn, [2, 1, 3]⟩, ⟨.Halt, []⟩] vtLB_ENUMS []
  [LambdaFactory.mk c5lambda [0] 3] []

/-- Machine for the QlnT claim: register 0 holds a tuple, the test is against
length 1 with false target 3; the instructions at offsets 1 (the fall-through
target) and 3 (the false target) are markers that would overwrite register 1,
offsets 2 and 4 are Halt. -/

def c6vm (t : List Int) : Vmstate :=
.mk [tupleOf t, nullV, mkInt 100, mkInt 200] []
  [⟨.QlnT, [0, 1, 3]⟩, ⟨.Asgm, [1, 2]⟩, ⟨.Halt, []⟩, ⟨.Asgm, [1, 3]⟩, ⟨.Halt, []⟩]
  vtLB_ENUMS [] [] []

/-- Base machine of the division scenario: the dividend INT 10 at register 0,
the divisor at register 2, the destination register 3. -/

def c8vm (d : Int) : Vmstate :=
.mk [mkInt 10, nullV, mkInt d, nullV] [] [] vtLB_ENUMS [] [] []

/-- The division scenario program: the code emitted by btDivideIntegers for
dest 3 and argument registers 0 and 2, followed by a Halt. -/

def c8prog (d : Int) : Vmstate :=
emit (btDivideIntegers (c8vm d) 0 3 [0, 99, 2]) .Halt []

/-- Bare unguarded Divi over a zero divisor. -/

def c8divZeroVm : Vmstate :=
.mk [nullV, mkInt 10, mkInt 0] [] [⟨.Divi, [0, 1, 2]⟩] vtLB_ENUMS [] [] []

/-- Machine for the Adtk claim: register 0 holds an error whose record sits
at heap address 0 with trace t0, the token table holds tk, and Adtk copies
the error into register 1 while appending token 0 to its trace. -/

def c9vm (t0 : List Nat) (tk : Nat) : Vmstate :=
.mk [.mk vtERROR (.pErr 0), nullV] [] [⟨.Adtk, [1, 0, 0]⟩, ⟨.Halt, []⟩] vtLB_ENUMS
  [tk] [] [ErrObj.mk "someid" "m" 0 t0]

/-- Machine for the register-file-length witness. -/

def c10vm : Vmstate :=
.mk [mkInt 3, mkInt 4, mkInt 0] [] [⟨.Addi, [2, 0, 1]⟩, ⟨.Halt, []⟩] vtLB_ENUMS [] [] []

/-- Final state of the register-file-length witness run. -/

def c10vmRes : Vmstate :=
.mk [mkInt 3, mkInt 4, mkInt 7] [] [⟨.Addi, [2, 0, 1]⟩, ⟨.Halt, []⟩] vtLB_ENUMS [] [] []

/-- Witness for run_preserves_mem_length on a concrete three-register
program. -/

theorem TScheme.one_le_sizeOf : ∀ t : TScheme, 1 ≤ sizeOf t := by
intro t
cases t <;> simp_arith

theorem lengthsAlt_mono : ∀ (l : List TScheme) (acc s : Finset Int),
    lengthsAlt l acc = some s → acc ⊆ s := by
intro l
induction l with
| nil =>
  intro acc s h
  simp only [lengthsAlt] at h
  injection h with h
  exact h ▸ Finset.Subset.refl _
| cons v rest ih =>
  intro acc s h
  simp only [lengthsAlt] at h
  split at h
  · exact Option.noConfusion h
  · split at h
    · injection h with h
      exact h ▸ Finset.subset_union_left
    · exact (Finset.subset_union_left).trans (ih _ _ h)

theorem lengths_nonempty_bounded : ∀ (n : Nat) (t : TScheme), sizeOf t ≤ n →
    ∀ s : Finset Int, noEmptyAlt t = true → lengths t = some s → s.Nonempty := by
intro n
induction n with
| zero =>
  intro t ht
  exact absurd (TScheme.one_le_sizeOf t) (by omega)
| succ n ih =>
  intro t ht s hne hlen
  cases t with
  | simple u =>
    simp only [lengths] at hlen
    injection hlen with hlen
    exact hlen ▸ Finset.singleton_nonempty _
  | typedTuple l =>
    simp only [lengths] at hlen
    injection hlen with hlen
    exact hlen ▸ Finset.singleton_nonempty _
  | bling tag =>
    simp only [lengths] at hlen
    exact Option.noConfusion hlen
  | listT l =>
    simp only [lengths] at hlen
    exact Option.noConfusion hlen
  | alternate l =>
    cases l with
    | nil => simp [noEmptyAlt] at hne
    | cons x rest =>
      simp only [noEmptyAlt, noEmptyAltList, List.isEmpty, Bool.not_false,
        Bool.true_and, Bool.and_eq_true] at hne
      simp only [lengths, lengthsAlt] at hlen
      split at hlen
      · exact Option.noConfusion hlen
      · rename_i sx hx
        have hszx : sizeOf x ≤ n := by
          have := TScheme.one_le_sizeOf x
          simp_arith at ht
          omega
        have hxne : sx.Nonempty := ih x hszx sx hne.1 hx
        split at hlen
        · injection hlen with hlen
          exact hlen ▸ hxne.mono Finset.subset_union_right
        · have hsub := lengthsAlt_mono rest (∅ ∪ sx) s hlen
          exact hxne.mono ((Finset.subset_union_right).trans hsub)
  | finiteTuple l =>
    cases l with
    | nil =>
      simp only [lengths] at hlen
      injection hlen with hlen
      exact hlen ▸ Finset.singleton_nonempty _
    | cons x rest =>
      simp only [noEmptyAlt, noEmptyAltList, Bool.and_eq_true] at hne
      simp only [lengths] at hlen
      split at hlen
      · rename_i s1 s2 h1 h2
        have hposx := TScheme.one_le_sizeOf x
        have hsz : sizeOf x ≤ n ∧ sizeOf (TScheme.finiteTuple rest) ≤ n := by
          simp_arith at ht ⊢
          omega
        have hs1 : s1.Nonempty := ih x hsz.1 s1 hne.1 h1
        have hs2 : s2.Nonempty := by
          refine ih _ hsz.2 s2 ?_ h2
          simp [noEmptyAlt, hne.2]
        injection hlen with hlen
        exact hlen ▸ (hs1.product hs2).image _
      · exact Option.noConfusion hlen

/-- C4: the compare methods do not order typedTupleType against alternateType:
the typedTupleType switch omits alternateType from its returns-one cases, so
both orientations of the comparison fall to a default branch returning -1.
This evaluation exhibits the violation of antisymmetry at a concrete pair. -/
theorem tsCompare_typedTuple_alternate_asym :
    tsCompare (.typedTuple [.simple 9]) (.alternate [.simple 9]) = -1 ∧
    tsCompare (.alternate [.simple 9]) (.typedTuple [.simple 9]) = -1 := by
constructor <;> simp [tsCompare]

/-- C7 counterexample: lengths of the empty alternate is the empty set, and an
alternate whose first member contributes -1 stops early, missing the lengths
of later members, so the result is not the union of the members sets. -/
theorem lengths_union_counterexample :
    lengths (.alternate []) = some (∅ : Finset Int) ∧
    lengths (.simple 9) = some ({1} : Finset Int) ∧
    lengths (.typedTuple []) = some ({-1} : Finset Int) ∧
    lengths (.alternate [.typedTuple [], .simple 9]) = some ({-1} : Finset Int) ∧
    ({-1} : Finset Int) ≠ {-1} ∪ {1} := by
refine ⟨by simp [lengths, lengthsAlt], by simp [lengths], by simp [lengths],
  by simp [lengths, lengthsAlt], by decide⟩

/-- C7 amended: a simple scheme yields the singleton one, a typed tuple the
singleton minus-one, a finite tuple the pairwise sums of its head and tail
length sets; an alternate folds the union of its members length sets from
left to right but stops as soon as -1 is in the accumulated union; and the
result is nonempty for every scheme free of empty alternates on which lengths
does not panic. -/
theorem lengths_amended :
    (∀ t, lengths (.simple t) = some ({1} : Finset Int)) ∧
    (∀ l, lengths (.typedTuple l) = some ({-1} : Finset Int)) ∧
    (∀ x rest s1 s2, lengths x = some s1 → lengths (.finiteTuple rest) = some s2 →
      lengths (.finiteTuple (x :: rest)) = some ((s1 ×ˢ s2).image (fun p => p.1 + p.2))) ∧
    (∀ v rest acc s, lengths v = some s → (-1 : Int) ∈ acc ∪ s →
      lengthsAlt (v :: rest) acc = some (acc ∪ s)) ∧
    (∀ v rest acc s, lengths v = some s → (-1 : Int) ∉ acc ∪ s →
      lengthsAlt (v :: rest) acc = lengthsAlt rest (acc ∪ s)) ∧
    (∀ t s, noEmptyAlt t = true → lengths t = some s → s.Nonempty) := by
refine ⟨fun t => by simp [lengths], fun l => by simp [lengths], ?_, ?_, ?_, ?_⟩
· intro x rest s1 s2 h1 h2
  simp only [lengths]
  rw [h1, h2]
· intro v rest acc s hv hmem
  simp only [lengthsAlt]
  rw [hv]
  simp only [if_pos hmem]
· intro v rest acc s hv hmem
  simp only [lengthsAlt]
  rw [hv]
  simp only [if_neg hmem]
· intro t s hne hlen
  exact lengths_nonempty_bounded (sizeOf t) t (Nat.le_refl _) s hne hlen

/-- Witness for lengths_amended at a concrete scheme. -/
theorem lengths_amended_witness :
    noEmptyAlt (.alternate [.simple 9]) = true ∧
    lengths (.alternate [.simple 9]) = some ({1} : Finset Int) ∧
    ({1} : Finset Int).Nonempty :=
⟨by simp [noEmptyAlt, noEmptyAltList], by simp [lengths, lengthsAlt],
  lengths_amended.2.2.2.2.2 (.alternate [.simple 9]) {1}
    (by simp [noEmptyAlt, noEmptyAltList]) (by simp [lengths, lengthsAlt])⟩

theorem wr_mem_length : ∀ {vm : Vmstate} {i : Nat} {x : Value} {vm2 : Vmstate},
    wr vm i x = some vm2 → vm2.mem.length = vm.mem.length := by
intro vm i x vm2 h
unfold wr at h
split at h
· injection h with h
  subst h
  simp
· exact Option.noConfusion h

theorem finishW_eq_some : ∀ {w : Option Vmstate} {c0 : Ctl} {vm2 : Vmstate} {c : Ctl},
    finishW w c0 = some (vm2, c) → w = some vm2 := by
intro w c0 vm2 c h
unfold finishW at h
split at h
· simp only [Option.some.injEq, Prod.mk.injEq] at h
  exact h.1 ▸ rfl
· exact Option.noConfusion h

theorem mkstLoop_mem_length : ∀ (l : List Value) (a0 : Nat) (vm : Vmstate) (acc : List Value)
    {vm2 : Vmstate} {acc2 : List Value},
    mkstLoop a0 l vm acc = some (vm2, acc2) → vm2.mem.length = vm.mem.length := by
intro l
induction l with
| nil =>
  intro a0 vm acc vm2 acc2 h
  unfold mkstLoop at h
  simp only [Option.some.injEq, Prod.mk.injEq] at h
  exact h.1 ▸ rfl
| cons v rest ih =>
  intro a0 vm acc vm2 acc2 h
  unfold mkstLoop at h
  repeat' split at h
  all_goals first
  | exact Option.noConfusion h
  | exact ih _ _ _ h
  | exact (ih _ _ _ h).trans (by apply wr_mem_length; assumption)

theorem mkmpLoop_mem_length : ∀ (l : List Value) (a0 : Nat) (vm : Vmstate) (acc : List KV)
    {vm2 : Vmstate} {acc2 : List KV},
    mkmpLoop a0 l vm acc = some (vm2, acc2) → vm2.mem.length = vm.mem.length := by
intro l
induction l with
| nil =>
  intro a0 vm acc vm2 acc2 h
  unfold mkmpLoop at h
  simp only [Option.some.injEq, Prod.mk.injEq] at h
  exact h.1 ▸ rfl
| cons p rest ih =>
  intro a0 vm acc vm2 acc2 h
  unfold mkmpLoop at h
  repeat' split at h
  all_goals first
  | exact Option.noConfusion h
  | exact ih _ _ _ h
  | exact (ih _ _ _ h).trans (by apply wr_mem_length; assumption)
  | (simp only [Option.some.injEq, Prod.mk.injEq] at h
     exact h.1 ▸ (by apply wr_mem_length; assumption))

theorem callCopy_mem_length : ∀ (n : Nat) (args : List Nat) (base j : Nat) (vm : Vmstate)
    {vm2 : Vmstate}, callCopy args base n j vm = some vm2 → vm2.mem.length = vm.mem.length := by
intro n
induction n with
| zero =>
  intro args base j vm vm2 h
  unfold callCopy at h
  injection h with h
  exact h ▸ rfl
| succ n ih =>
  intro args base j vm vm2 h
  unfold callCopy at h
  repeat' split at h
  all_goals first
  | exact Option.noConfusion h
  | exact (ih _ _ _ _ h).trans (by apply wr_mem_length; assumption)

theorem step_mem_length : ∀ {vm : Vmstate} {loc : Nat} {vm2 : Vmstate} {c : Ctl},
    step vm loc = some (vm2, c) → vm2.mem.length = vm.mem.length := by
intro vm loc vm2 c h
unfold step at h
split at h
· exact Option.noConfusion h
· split at h
  all_goals repeat' split at h
  all_goals first
  | exact Option.noConfusion h
  | exact Option.noConfusion h.symm
  | exact wr_mem_length (finishW_eq_some h)
  | exact wr_mem_length (finishW_eq_some h.symm)
  | exact (wr_mem_length (finishW_eq_some h)).trans (by first
      | (apply mkstLoop_mem_length; assumption)
      | (apply mkmpLoop_mem_length; assumption)
      | simp only [Vmstate.mem_withErrHeap])
  | exact (wr_mem_length (finishW_eq_some h.symm)).trans (by first
      | (apply mkstLoop_mem_length; assumption)
      | (apply mkmpLoop_mem_length; assumption)
      | simp only [Vmstate.mem_withErrHeap])
  | (simp only [Option.some.injEq, Prod.mk.injEq] at h
     obtain ⟨h1, h2⟩ := h
     subst h1
     first
     | rfl
     | (apply wr_mem_length; assumption)
     | (apply callCopy_mem_length; assumption)
     | (simp only [Vmstate.mem_withCallstack, Vmstate.mem_withErrHeap]
        first
        | (apply wr_mem_length; assumption)
        | (apply callCopy_mem_length; assumption))
     | simp only [Vmstate.mem_withCallstack, Vmstate.mem_withErrHeap])

theorem run_mem_length : ∀ (f : Nat) {vm : Vmstate} {loc : Nat} {vm2 : Vmstate},
    run f vm loc = some vm2 → vm2.mem.length = vm.mem.length := by
intro f
induction f with
| zero =>
  intro vm loc vm2 h
  exact Option.noConfusion h
| succ f ih =>
  intro vm loc vm2 h
  unfold run at h
  split at h
  · exact Option.noConfusion h
  · split at h
    · repeat' split at h
      all_goals first
      | exact Option.noConfusion h
      | exact Option.noConfusion h.symm
      | exact (ih h).trans
          ((wr_mem_length (by assumption)).trans (wr_mem_length (by assumption)))
    · repeat' split at h
      all_goals first
      | exact Option.noConfusion h
      | exact Option.noConfusion h.symm
      | exact (ih h).trans (by apply step_mem_length; assumption)
      | (simp only [Option.some.injEq] at h
         exact h ▸ (by apply step_mem_length; assumption))

/-- C1: splicing does not relocate the loc operand of a copied Jmp, because
Vm.add only touches the last operand of instructions with more than one
operand: after splicing onto a base with one instruction of code, the copied
Jmp still targets 5 (the claim requires 6), while the two-operand Qtru has
its loc operand relocated from 7 to 8. -/
theorem addVm_jmp_not_relocated :
    ((addVm c1Base c1Other).code[1]?).map Operation.args = some [5] ∧
    ((addVm c1Base c1Other).code[2]?).map Operation.args = some [0, 8] := by
constructor <;> rfl

/-- C2: when a source element violates the admissibility predicate, the
destination register still ends SET- or MAP-tagged, not ERROR-tagged: the
latent error written inside the loop is overwritten by the unconditional
assignment of the constructed SET or MAP after the loop. -/
theorem mkst_mkmp_dest_overwritten :
    (run 5 c2vmSt 0).bind (fun v => (rd v 2).map Value.t) = some vtSET ∧
    (run 5 c2vmMp 0).bind (fun v => (rd v 1).map Value.t) = some vtMAP ∧
    vtSET ≠ vtERROR ∧ vtMAP ≠ vtERROR := by
refine ⟨rfl, rfl, by decide, by decide⟩

/-- C3: CcTT appends the whole right tuple as one element instead of
flattening it - on TUPLE [1,2] and TUPLE [3,4] it produces the length-3
TUPLE [1,2,TUPLE [3,4]], not the length-4 TUPLE [1,2,3,4] - while Cc1T on
INT 0 and TUPLE [1,2] produces TUPLE [0,1,2] as claimed. -/
theorem ccTT_not_flattened :
    (run 9 c3vm 0).bind (fun v => rd v 2) =
      some (.mk vtTUPLE (.pVals [mkInt 1, mkInt 2, tupleOf [3, 4]])) ∧
    (run 9 c3vm 0).bind (fun v => rd v 3) = some (tupleOf [0, 1, 2]) := by
constructor <;> rfl

/-- C5: Mkfn snapshots the named register into the captures, but Dofn copies
the outer register file into the captures snapshot instead of copying the
captures into the lambda's register file, so the capture slot of the inner
machine keeps its stale INT 0 and the call returns INT 1 rather than the
claimed INT 42. -/
theorem dofn_capture_lost :
    (step c5vm 0).map (fun p => ((rd p.1 1).bind Value.asFunc).map Lambda.captures) =
      some (some [mkInt 41]) ∧
    (run 9 c5vm 0).bind (fun v => (rd v 2).bind Value.asInt) = some 1 := by
constructor <;> rfl

/-- C6: the QlnT case of the dispatch loop lacks the continue that the other
conditionals have, so the bottom-of-loop increment is applied on top of the
branch assignment: with a length match the next instruction executed is at
pc+2 and with a mismatch at false_target+1, skipping the marker instructions
at pc+1 and false_target, so register 1 keeps NULL in both runs. -/
theorem qlnT_skips_next :
    (run 9 (c6vm [7]) 0).bind (fun v => rd v 1) = some nullV ∧
    (run 9 (c6vm [7, 8]) 0).bind (fun v => rd v 1) = some nullV := by
constructor <;> rfl

/-- C8: the code emitted by the integer-division builtin guards Divi with an
Equi against a reserved zero constant and a Qtru: dividing 10 by 0 leaves an
ERROR tagged built/div/int in the destination, dividing 10 by 2 leaves
INT 5, and the bare Divi opcode performs no zero check of its own - on a
zero divisor it aborts (the host panic) instead of producing a value. -/
theorem btDivideIntegers_guard_ok :
    (run 9 (c8prog 0) 0).bind (fun v => (rd v 3).map Value.t) = some vtERROR ∧
    (run 9 (c8prog 0) 0).bind (fun v => ((rd v 3).bind Value.asErr).bind
      (fun a => (v.errHeap[a]?).map ErrObj.errorId)) = some "built/div/int" ∧
    (run 9 (c8prog 2) 0).bind (fun v => (rd v 3).bind Value.asInt) = some 5 ∧
    step c8divZeroVm 0 = none := by
refine ⟨rfl, rfl, rfl, rfl⟩

/-- C9 counterexample: after Adtk the error observable through the source
register has its trace extended as well - starting from an empty trace and
appending token 7, the record reachable from the source register reads [7],
not the unchanged []. -/
theorem adtk_src_trace_extended :
    (run 3 (c9vm [] 7) 0).bind (fun v => (rd v 0).bind Value.asErr) = some 0 ∧
    (run 3 (c9vm [] 7) 0).bind (fun v => (v.errHeap[0]?).map ErrObj.trace) = some [7] ∧
    some [7] ≠ some ([] : List Nat) := by
refine ⟨rfl, rfl, by decide⟩

/-- C9 amended: Adtk copies the error value shallowly - destination and
source keep pointing at the same error record - and appends the token to the
trace of that shared record in place, so the extended trace is observable
through the destination and the source alike. -/
theorem adtk_shared_trace : ∀ (t0 : List Nat) (tk : Nat),
    (run 3 (c9vm t0 tk) 0).bind (fun v => rd v 1) = some (.mk vtERROR (.pErr 0)) ∧
    (run 3 (c9vm t0 tk) 0).bind (fun v => rd v 0) = some (.mk vtERROR (.pErr 0)) ∧
    (run 3 (c9vm t0 tk) 0).bind (fun v => (v.errHeap[0]?).map ErrObj.trace) =
      some (t0 ++ [tk]) := by
intro t0 tk
refine ⟨?_, ?_, ?_⟩ <;>
  simp [run, step, c9vm, rd, wr, finishW, Vmstate.code, Vmstate.mem, Vmstate.tokens,
    Vmstate.errHeap, Vmstate.withMem, Vmstate.withErrHeap, Value.asErr, vtERROR, vtNULL,
    nullV]

/-- C10: the dispatch loop never changes the length of the register file -
every opcode arm writes only by index into already-existing registers, so
both a single dispatch step and a whole run preserve the length of mem. -/
theorem run_preserves_mem_length :
    (∀ (vm : Vmstate) (loc : Nat) (vm2 : Vmstate) (c : Ctl),
      step vm loc = some (vm2, c) → vm2.mem.length = vm.mem.length) ∧
    (∀ (f : Nat) (vm : Vmstate) (loc : Nat) (vm2 : Vmstate),
      run f vm loc = some vm2 → vm2.mem.length = vm.mem.length) :=
⟨fun _ _ _ _ h => step_mem_length h, fun f _ _ _ h => run_mem_length f h⟩

theorem run_preserves_mem_length_witness :
    run 3 c10vm 0 = some c10vmRes ∧ c10vmRes.mem.length = c10vm.mem.length :=
⟨rfl, run_preserves_mem_length.2 3 c10vm 0 c10vmRes rfl⟩

end Pipefish



